import Mathlib

set_option linter.unusedVariables false

/-!
Shallow embedding of the hierarchical batch-construction pipeline of the
`neural_sp` snapshot: `DatasetBase.make_batch`
(`src/utils/dataset/loader_hierarchical.py`) and the manifest filtering of
`Dataset.__init__` (`src/examples/swbd/data/load_dataset.py`), together with
theorems checking the specification's claims about them.
-/

namespace NeuralSP

instance {ε α : Type} [DecidableEq ε] [DecidableEq α] : DecidableEq (Except ε α) :=
  fun x y =>
    match x, y with
    | Except.ok a, Except.ok b =>
      if h : a = b then isTrue (by rw [h])
      else isFalse (fun hc => h (Except.ok.inj hc))
    | Except.error e, Except.error f =>
      if h : e = f then isTrue (by rw [h])
      else isFalse (fun hc => h (Except.error.inj hc))
    | Except.ok _, Except.error _ => isFalse (fun hc => Except.noConfusion hc)
    | Except.error _, Except.ok _ => isFalse (fun hc => Except.noConfusion hc)

/-- Exact ceiling of `a / b`, embedding Python `math.ceil(a / b)` on
positive integers. -/
def ceilDiv (a b : Nat) : Nat := (a + b - 1) / b

/-- Python `max` over a list; the empty case is never reached because the
callers raise on empty batches first. -/
def maxNat : List Nat → Nat
  | [] => 0
  | x :: xs => xs.foldl max x

/-- Pandas gather `df[col][data_indices]` by positional index; `none`
models the `KeyError` raised on a missing index. -/
def getAll {α : Type} (xs : List α) : List Nat → Option (List α)
  | [] => some []
  | i :: idxs =>
    match xs[i]?, getAll xs idxs with
    | some x, some rest => some (x :: rest)
    | _, _ => none

/-- Numpy slice assignment `xs[start : start + vals.length] = vals`; every
caller in `make_batch` stays within bounds, which keeps the length fixed. -/
def setRange {α : Type} (xs : List α) (start : Nat) (vals : List α) : List α :=
  xs.take start ++ vals ++ xs.drop (start + vals.length)

/-- Split a character list at every occurrence of the separator, keeping
empty pieces; the empty input yields one empty piece, exactly like Python
`str.split` with an explicit separator. -/
def splitOnChar (sep : Char) : List Char → List (List Char)
  | [] => [[]]
  | c :: rest =>
    let r := splitOnChar sep rest
    if c = sep then [] :: r
    else
      match r with
      | [] => [[c]]
      | g :: gs => (c :: g) :: gs

/-- Python `s.split(' ')`: split at every single space, keeping empties. -/
def tokens (s : String) : List String :=
  (splitOnChar ' ' s.data).map (fun cs => String.mk cs)

/-- Token count of a raw transcript, `len(s.split(' '))`. -/
def tokenCount (s : String) : Nat := (tokens s).length

/-- Accumulator pass of decimal parsing: all characters must be digits. -/
def parseDigitsAux : List Char → Nat → Option Nat
  | [], acc => some acc
  | c :: rest, acc =>
    if c.isDigit then parseDigitsAux rest (acc * 10 + (c.toNat - 48))
    else none

/-- A nonempty decimal digit string. -/
def parseDigits : List Char → Option Nat
  | [] => none
  | c :: rest => parseDigitsAux (c :: rest) 0

/-- Python `int(s)` on the plain integer literals found in transcripts:
an optional sign followed by decimal digits; `none` models `ValueError`. -/
def parseInt (s : String) : Option Int :=
  match s.data with
  | '-' :: rest => (parseDigits rest).map (fun n => -(n : Int))
  | '+' :: rest => (parseDigits rest).map (fun n => (n : Int))
  | cs => (parseDigits cs).map (fun n => (n : Int))

/-- Option-valued map, structurally recursive so that concrete instances
evaluate inside the kernel. -/
def mapO {α β : Type} (f : α → Option β) : List α → Option (List β)
  | [] => some []
  | x :: xs =>
    match f x, mapO f xs with
    | some y, some ys => some (y :: ys)
    | _, _ => none

/-- Python `list(map(int, s.split(' ')))` from `make_batch` lines 124-126;
`none` models the `ValueError` raised on a non-integer field. -/
def parseIndices (s : String) : Option (List Int) :=
  mapO parseInt (tokens s)

/-- Helper of the Python substring test: does `pat` occur in the list? -/
def containsAux (pat : List Char) : List Char → Bool
  | [] => pat.isEmpty
  | c :: rest => pat.isPrefixOf (c :: rest) || containsAux pat rest

/-- Python substring test `sub in s`. -/
def containsSub (s sub : String) : Bool := containsAux sub.data s.data

/-- `basename(path).split('.')[0]` from `make_batch` lines 95-97. -/
def inputName (path : String) : String :=
  String.mk ((splitOnChar '.' ((splitOnChar '/' path.data).getLastD [])).headD [])

/-- A two-dimensional feature array of shape `[T, F]` as stored in a
numpy/htk file. The loader only ever copies or zero-fills cell values, so an
integer stands for the float32 bit pattern; `ncol` records `shape[-1]`. -/
structure FeatArr where
  rows : List (List Int)
  ncol : Nat
deriving DecidableEq

/-- Shape consistency of a feature array: every row has width `ncol`. -/
def FeatArr.wf (a : FeatArr) : Prop := ∀ r ∈ a.rows, r.length = a.ncol

/-- A zero feature row of width `n`. -/
def zeros (n : Nat) : List Int := List.replicate n 0

/-- Modelled from the spec: `stack_frame` (imported from
`utils.io.inputs.frame_stacking`, whose file is not among the sources)
groups `num_stack` consecutive frames advancing by `num_skip` per group,
concatenates each group along the feature axis and zero-pads past the end
of the sequence; the output length is `ceil(T / num_skip)`. -/
def stack_frame (a : FeatArr) (num_stack num_skip : Nat) : FeatArr :=
  { rows := (List.range (ceilDiv a.rows.length num_skip)).map (fun i =>
      ((List.range num_stack).map (fun j =>
        (a.rows.get? (i * num_skip + j)).getD (zeros a.ncol))).flatten),
    ncol := a.ncol * num_stack }

/-- Modelled from the spec: `do_splice` (imported from
`utils.io.inputs.splicing`, whose file is not among the sources)
concatenates for each time step a window of `splice` frames clamped at the
sequence boundaries; it preserves the time length and multiplies the
feature width by `splice`. -/
def do_splice (a : FeatArr) (splice num_stack : Nat) : FeatArr :=
  { rows := (List.range a.rows.length).map (fun t =>
      ((List.range splice).map (fun w =>
        (a.rows.get? (min (a.rows.length - 1) (t + w - splice / 2))).getD
          (zeros a.ncol))).flatten),
    ncol := a.ncol * splice }

/-- One cell of a label tensor: a vocabulary index or, on evaluation splits
only, the raw untokenized transcript string (`make_batch` lines 118-122). -/
inductive LabelCell where
  | idx : Int → LabelCell
  | raw : String → LabelCell
deriving DecidableEq

/-- One manifest row, columns `frame_num`, `input_path`, `transcript`
(`load_dataset.py` line 82). -/
structure Record where
  frame_num : Nat
  input_path : String
  transcript : String
deriving DecidableEq

/-- The `DatasetBase` state read and written by `make_batch`, together with
the feature files the loader can read (association lists standing for the
filesystem). `input_size` is the lazily cached feature width
(`hasattr(self, 'input_size')` is `Option.isSome`). -/
structure Dataset where
  df : List Record
  df_sub : List Record
  is_test : Bool
  model_type : String
  save_format : String
  splice : Nat
  num_stack : Nat
  num_skip : Nat
  pad_value : Int
  pad_value_sub : Int
  sos_index : Int
  eos_index : Int
  sos_index_sub : Int
  eos_index_sub : Int
  input_size : Option Nat
  npy_files : List (String × FeatArr)
  htk_files : List (String × FeatArr)
deriving DecidableEq

/-- Filesystem lookup of one feature file. -/
def lookupFile (files : List (String × FeatArr)) (path : String) : Option FeatArr :=
  (files.find? (fun kv => kv.1 == path)).map Prod.snd

/-- `make_batch` lines 63-69 and 102-107: dispatch the load on
`save_format`; a missing file is an `IOError`, any other format value a
`TypeError`. -/
def load_file (d : Dataset) (path : String) : Except String FeatArr :=
  if d.save_format = "numpy" then
    match lookupFile d.npy_files path with
    | some a => Except.ok a
    | none => Except.error "IOError"
  else if d.save_format = "htk" then
    match lookupFile d.htk_files path with
    | some a => Except.ok a
    | none => Except.error "IOError"
  else Except.error "TypeError"

/-- The per-example slice of the batch tensors filled by one iteration of
the `make_batch` loop. -/
structure Row where
  input_row : List (List Int)
  input_len : Nat
  label_row : List LabelCell
  label_len : Nat
  label_row_sub : List LabelCell
  label_len_sub : Nat
deriving DecidableEq

/-- A pad-initialized label row of width `L` (lines 88-91). -/
def pads (L : Nat) (p : Int) : List LabelCell := List.replicate L (LabelCell.idx p)

/-- The three writes of the sequence-generation branch (lines 130-132 and
136-138) applied to a pad-initialized row: SOS at 0, the token cells at
`1 .. vals.length`, EOS at `vals.length + 1`. -/
def attRow (L : Nat) (p s e : LabelCell) (vals : List LabelCell) : List LabelCell :=
  (setRange ((List.replicate L p).set 0 s) 1 vals).set (vals.length + 1) e

/-- The write of the frame-synchronous branch (lines 141 and 144-145):
the token cells at `0 .. vals.length - 1` of a pad-initialized row. -/
def ctcRow (L : Nat) (p : LabelCell) (vals : List LabelCell) : List LabelCell :=
  setRange (List.replicate L p) 0 vals

/-- The evaluation-split write (lines 119-121): the raw untokenized
transcript at position 0 of a pad-initialized row. -/
def testRow (L : Nat) (p : LabelCell) (t : String) : List LabelCell :=
  (List.replicate L p).set 0 (LabelCell.raw t)

/-- Line 110: the stacked array `stack_frame(data_i, num_stack, num_skip)`
of one utterance; line 111 records its row count as `frame_num`. -/
def frameNum (d : Dataset) (a : FeatArr) : Nat :=
  (stack_frame a d.num_stack d.num_skip).rows.length

/-- Lines 110-114: the fully transformed array of one utterance, frame
stacking followed by splicing. -/
def transformed (d : Dataset) (a : FeatArr) : FeatArr :=
  do_splice (stack_frame a d.num_stack d.num_skip) d.splice d.num_stack

/-- Line 116: the transformed rows written into the zero-initialized
`inputs[i_batch, :frame_num, :]` prefix; the remaining `Tmax - frame_num`
rows keep their zeros. -/
def inputRowOf (d : Dataset) (Tmax width : Nat) (a : FeatArr) : List (List Int) :=
  (transformed d a).rows ++ List.replicate (Tmax - frameNum d a) (zeros width)

/-- Body of the `make_batch` per-example loop (lines 100-148): load the
raw array, stack, splice, write the input prefix (numpy raises a broadcast
`ValueError` if the transformed array does not fit the allocated slice),
then encode labels according to split and model family. `Tmax`, `L`,
`Lsub` and `width` are the allocated batch dimensions. -/
def processExample (d : Dataset) (Tmax L Lsub width : Nat)
    (path tr trSub : String) : Except String Row :=
  match load_file d path with
  | Except.error e => Except.error e
  | Except.ok a =>
    if frameNum d a ≤ Tmax ∧ (transformed d a).ncol = width then
      if d.is_test then
        Except.ok
          { input_row := inputRowOf d Tmax width a, input_len := frameNum d a,
            label_row := testRow L (LabelCell.idx d.pad_value) tr,
            label_len := 0,
            label_row_sub := testRow Lsub (LabelCell.idx d.pad_value_sub) trSub,
            label_len_sub := 0 }
      else
        match parseIndices tr, parseIndices trSub with
        | some ind, some indSub =>
          if d.model_type = "hierarchical_attention" then
            Except.ok
              { input_row := inputRowOf d Tmax width a, input_len := frameNum d a,
                label_row := attRow L (LabelCell.idx d.pad_value)
                    (LabelCell.idx d.sos_index) (LabelCell.idx d.eos_index)
                    (ind.map LabelCell.idx),
                label_len := ind.length + 2,
                label_row_sub := attRow Lsub (LabelCell.idx d.pad_value_sub)
                    (LabelCell.idx d.sos_index_sub) (LabelCell.idx d.eos_index_sub)
                    (indSub.map LabelCell.idx),
                label_len_sub := indSub.length + 2 }
          else if d.model_type = "hierarchical_ctc" then
            Except.ok
              { input_row := inputRowOf d Tmax width a, input_len := frameNum d a,
                label_row := ctcRow L (LabelCell.idx d.pad_value) (ind.map LabelCell.idx),
                label_len := ind.length,
                label_row_sub := ctcRow Lsub (LabelCell.idx d.pad_value_sub)
                    (indSub.map LabelCell.idx),
                label_len_sub := indSub.length }
          else Except.error "TypeError"
        | _, _ => Except.error "ValueError"
    else Except.error "ValueError: could not broadcast"

/-- `make_batch` lines 63-71: lazily cache `input_size` as the first
utterance's array width times `num_stack` times `splice`. -/
def resolveInputSize (d : Dataset) (input_path_list : List String) :
    Except String (Nat × Dataset) :=
  match d.input_size with
  | some sz => Except.ok (sz, d)
  | none =>
    match input_path_list.head? with
    | none => Except.error "IndexError"
    | some p =>
      match load_file d p with
      | Except.error e => Except.error e
      | Except.ok a =>
        let sz := a.ncol * d.num_stack * d.splice
        Except.ok (sz, { d with input_size := some sz })

/-- Effectful left-to-right map over `Except`, the sequencing of the
per-example loop: the first raised error aborts the whole batch. -/
def mapE {α β : Type} (f : α → Except String β) : List α → Except String (List β)
  | [] => Except.ok []
  | x :: xs =>
    match f x with
    | Except.error e => Except.error e
    | Except.ok y =>
      match mapE f xs with
      | Except.error e => Except.error e
      | Except.ok ys => Except.ok (y :: ys)

/-- The tuple returned by `make_batch` (docstring lines 41-55). -/
structure Batch where
  inputs : List (List (List Int))
  labels : List (List LabelCell)
  labels_sub : List (List LabelCell)
  inputs_seq_len : List Nat
  labels_seq_len : List Nat
  labels_seq_len_sub : List Nat
  input_names : List String
deriving DecidableEq

/-- `T_max` of a gathered batch, lines 74-75:
`math.ceil(max(frame_num) / num_skip)`. -/
def tmaxOf (d : Dataset) (recs : List Record) : Nat :=
  ceilDiv (maxNat (recs.map Record.frame_num)) d.num_skip

/-- `max_seq_len` of a gathered transcript column, lines 78-81: maximum RAW
token count plus 2 slots for SOS and EOS. -/
def lmaxOf (recs : List Record) : Nat :=
  maxNat ((recs.map Record.transcript).map tokenCount) + 2

/-- The per-example data consumed by the loop: input path zipped with the
two transcript columns, all gathered at `data_indices`. -/
def zip3 (recs recs_sub : List Record) : List (String × String × String) :=
  (recs.map Record.input_path).zip
    ((recs.map Record.transcript).zip (recs_sub.map Record.transcript))

/-- Assembling the return tuple of `make_batch` (line 160) from the filled
per-example rows. -/
def mkBatch (rows : List Row) (names : List String) : Batch :=
  { inputs := rows.map Row.input_row,
    labels := rows.map Row.label_row,
    labels_sub := rows.map Row.label_row_sub,
    inputs_seq_len := rows.map Row.input_len,
    labels_seq_len := rows.map Row.label_len,
    labels_seq_len_sub := rows.map Row.label_len_sub,
    input_names := names }

/-- `make_batch` after the cache resolution (lines 73-160): compute the
batch maxima (Python `max` raises `ValueError` on an empty gather, and the
`T_max` division `ZeroDivisionError` on `num_skip = 0`), then run the
per-example loop. The allocated feature width of `inputs` is
`self.input_size * self.splice` exactly as written at line 86. -/
def make_batch_core (d' : Dataset) (isz : Nat) (recs recs_sub : List Record) :
    Except String Batch :=
  if recs.map Record.frame_num = [] then Except.error "ValueError"
  else if d'.num_skip = 0 then Except.error "ZeroDivisionError"
  else
    match mapE (fun x => processExample d' (tmaxOf d' recs) (lmaxOf recs)
        (lmaxOf recs_sub) (isz * d'.splice) x.1 x.2.1 x.2.2)
        (zip3 recs recs_sub) with
    | Except.error e => Except.error e
    | Except.ok rows =>
      Except.ok (mkBatch rows ((recs.map Record.input_path).map inputName))

/-- `DatasetBase.make_batch` (loader_hierarchical.py lines 37-160): gather
the manifest rows (lines 58-61), resolve the lazy `input_size` cache
(lines 63-71), then build the batch. The result is returned together with
the post-call instance state. -/
def make_batch (d : Dataset) (data_indices : List Nat) :
    Except String Batch × Dataset :=
  match getAll d.df data_indices, getAll d.df_sub data_indices with
  | some recs, some recs_sub =>
    match resolveInputSize d (recs.map Record.input_path) with
    | Except.error e => (Except.error e, d)
    | Except.ok (isz, d') => (make_batch_core d' isz recs recs_sub, d')
  | _, _ => (Except.error "KeyError", d)

/-- Joint short/long drop condition of `Dataset.__init__`
(`load_dataset.py` lines 87-92): token count at most 3 for word-level label
types, at most 24 otherwise, AND at least 1000 frames. -/
def dropJoint (label_type : String) (r : Record) : Bool :=
  if containsSub label_type "word" then
    decide (tokenCount r.transcript ≤ 3) && decide (1000 ≤ r.frame_num)
  else
    decide (tokenCount r.transcript ≤ 24) && decide (1000 ≤ r.frame_num)

/-- `Dataset.__init__` lines 84-96: on non-evaluation splits
(`is_test` is `'eval' in data_type`, line 56) drop utterances by the joint
condition, then drop those above 1580 frames, then keep only the first 4000
surviving rows on the `dev` split; evaluation splits are left untouched. -/
def filter_df (data_type label_type : String) (df : List Record) : List Record :=
  if containsSub data_type "eval" then df
  else
    let df1 := df.filter (fun r => !(dropJoint label_type r))
    let df2 := df1.filter (fun r => decide (r.frame_num ≤ 1580))
    if data_type = "dev" then df2.take 4000 else df2

/-- The drop condition exactly as claim C5 words it: (short transcript AND
long audio) OR above the hard frame ceiling. -/
def dropClaimC5 (label_type : String) (r : Record) : Bool :=
  dropJoint label_type r || decide (1580 < r.frame_num)

/-- A concrete training-split dataset (attention family, one utterance,
one 1-frame, 1-feature numpy file). -/
def dsAttn : Dataset where
  df := [⟨1, "a/u1.npy", "5"⟩]
  df_sub := [⟨1, "a/u1.npy", "3 4"⟩]
  is_test := false
  model_type := "hierarchical_attention"
  save_format := "numpy"
  splice := 1
  num_stack := 1
  num_skip := 1
  pad_value := 0
  pad_value_sub := 0
  sos_index := 1
  eos_index := 2
  sos_index_sub := 1
  eos_index_sub := 2
  input_size := none
  npy_files := [("a/u1.npy", ⟨[[7]], 1⟩)]
  htk_files := []

/-- `dsAttn` after its first `make_batch` call cached `input_size = 1`. -/
def dsAttnCached : Dataset := { dsAttn with input_size := some 1 }

/-- The batch `make_batch dsAttn [0]` produces. -/
def bAttn : Batch where
  inputs := [[[7]]]
  labels := [[LabelCell.idx 1, LabelCell.idx 5, LabelCell.idx 2]]
  labels_sub := [[LabelCell.idx 1, LabelCell.idx 3, LabelCell.idx 4, LabelCell.idx 2]]
  inputs_seq_len := [1]
  labels_seq_len := [3]
  labels_seq_len_sub := [4]
  input_names := ["u1"]

/-- A concrete evaluation-split dataset (`is_test = true`): raw transcripts
go into the label tensors untokenized. -/
def dsTest : Dataset :=
  { dsAttn with
    is_test := true
    df := [⟨10, "a/u1.npy", "hello there you"⟩]
    df_sub := [⟨10, "a/u1.npy", "h i"⟩]
    npy_files := [("a/u1.npy", ⟨List.replicate 10 [7, 8], 2⟩)] }

/-- A concrete dataset with `splice = 2` over a 2-frame, 2-feature file:
the allocated feature width is `input_size * splice = 8` while the
transformed rows are only 4 wide. -/
def dsSplice2 : Dataset :=
  { dsAttn with
    splice := 2
    df := [⟨2, "a/u1.npy", "5"⟩]
    npy_files := [("a/u1.npy", ⟨[[7, 8], [9, 10]], 2⟩)] }

/-- A concrete dataset whose `save_format` is neither `numpy` nor `htk`. -/
def dsBadFormat : Dataset := { dsAttn with save_format := "kaldi" }

/-- A concrete training dataset whose `model_type` is neither hierarchical
family. -/
def dsBadModel : Dataset := { dsAttn with model_type := "attention" }

/-- A manifest record that passes every filter of `Dataset.__init__`:
4 tokens and 100 frames. -/
def rGood : Record := ⟨100, "p", "1 2 3 4"⟩

/-- A manifest record above the 1580-frame hard ceiling. -/
def rLong : Record := ⟨1600, "q", "1 2 3 4"⟩

/-- A two-record manifest: one kept, one dropped by the hard ceiling. -/
def dfSmall : List Record := [rGood, rLong]

/-- `mapO` preserves length. -/
theorem mapO_length {α β : Type} {f : α → Option β} {xs : List α} {ys : List β}
    (h : mapO f xs = some ys) : ys.length = xs.length := by
  induction xs generalizing ys with
  | nil =>
    simp only [mapO, Option.some.injEq] at h
    subst h; rfl
  | cons x xs ih =>
    simp only [mapO] at h
    cases hf : f x with
    | none => rw [hf] at h; simp at h
    | some y =>
      rw [hf] at h
      cases hm : mapO f xs with
      | none => rw [hm] at h; simp at h
      | some ys2 =>
        rw [hm] at h
        simp only [Option.some.injEq] at h
        subst h
        simp [ih hm]

/-- A parsed transcript has exactly as many indices as raw tokens. -/
theorem parseIndices_length {s : String} {ind : List Int}
    (h : parseIndices s = some ind) : ind.length = tokenCount s :=
  mapO_length h

/-- `mapE` preserves length on success. -/
theorem mapE_length {α β : Type} {f : α → Except String β} {xs : List α}
    {ys : List β} (h : mapE f xs = Except.ok ys) : ys.length = xs.length := by
  induction xs generalizing ys with
  | nil =>
    simp only [mapE, Except.ok.injEq] at h
    subst h; rfl
  | cons x xs ih =>
    simp only [mapE] at h
    cases hf : f x with
    | error e => rw [hf] at h; simp at h
    | ok y =>
      rw [hf] at h
      cases hm : mapE f xs with
      | error e => rw [hm] at h; simp at h
      | ok ys2 =>
        rw [hm] at h
        simp only [Except.ok.injEq] at h
        subst h
        simp [ih hm]

/-- On success, `mapE` applied `f` successfully to every element. -/
theorem mapE_get {α β : Type} {f : α → Except String β} {xs : List α}
    {ys : List β} (h : mapE f xs = Except.ok ys) :
    ∀ {i : Nat} {x : α}, xs[i]? = some x →
      ∃ y, ys[i]? = some y ∧ f x = Except.ok y := by
  induction xs generalizing ys with
  | nil => intro i x hx; simp at hx
  | cons a xs ih =>
    intro i x hx
    simp only [mapE] at h
    cases hf : f a with
    | error e => rw [hf] at h; simp at h
    | ok y =>
      rw [hf] at h
      cases hm : mapE f xs with
      | error e => rw [hm] at h; simp at h
      | ok ys2 =>
        rw [hm] at h
        simp only [Except.ok.injEq] at h
        subst h
        cases i with
        | zero =>
          simp only [List.getElem?_cons_zero, Option.some.injEq] at hx
          subst hx
          exact ⟨y, by simp, hf⟩
        | succ n =>
          simp only [List.getElem?_cons_succ] at hx
          obtain ⟨y2, hy2, hfy2⟩ := ih hm hx
          exact ⟨y2, by simpa using hy2, hfy2⟩

/-- A failing head aborts `mapE` with the same error. -/
theorem mapE_cons_error {α β : Type} {f : α → Except String β} {x : α}
    {xs : List α} {e : String} (h : f x = Except.error e) :
    mapE f (x :: xs) = Except.error e := by
  simp [mapE, h]

/-- A successful gather returns one row per requested index. -/
theorem getAll_length {α : Type} {xs : List α} {idxs : List Nat} {ys : List α}
    (h : getAll xs idxs = some ys) : ys.length = idxs.length := by
  induction idxs generalizing ys with
  | nil =>
    simp only [getAll, Option.some.injEq] at h
    subst h; rfl
  | cons i idxs ih =>
    simp only [getAll] at h
    cases hx : xs[i]? with
    | none => rw [hx] at h; simp at h
    | some x =>
      rw [hx] at h
      cases hm : getAll xs idxs with
      | none => rw [hm] at h; simp at h
      | some rest =>
        rw [hm] at h
        simp only [Option.some.injEq] at h
        subst h
        simp [ih hm]

/-- In-bounds slice assignment preserves the length. -/
theorem setRange_length {α : Type} {xs : List α} {start : Nat} {vals : List α}
    (h : start + vals.length ≤ xs.length) :
    (setRange xs start vals).length = xs.length := by
  simp only [setRange, List.length_append, List.length_take, List.length_drop]
  omega

/-- Slice assignment leaves the cells before the slice unchanged. -/
theorem setRange_getElem_lt {α : Type} {xs : List α} {start : Nat}
    {vals : List α} {j : Nat} (hb : start + vals.length ≤ xs.length)
    (hj : j < start) : (setRange xs start vals)[j]? = xs[j]? := by
  unfold setRange
  rw [List.getElem?_append_left (by simp; omega)]
  rw [List.getElem?_append_left (by simp; omega)]
  rw [List.getElem?_take]
  simp [hj]

/-- Slice assignment writes exactly the given cells inside the slice. -/
theorem setRange_getElem_mid {α : Type} {xs : List α} {start : Nat}
    {vals : List α} {j : Nat} (hb : start + vals.length ≤ xs.length)
    (h1 : start ≤ j) (h2 : j < start + vals.length) :
    (setRange xs start vals)[j]? = vals[j - start]? := by
  unfold setRange
  rw [List.getElem?_append_left (by simp; omega)]
  rw [List.getElem?_append_right (by simp; omega)]
  congr 1
  simp
  omega

/-- Slice assignment leaves the cells after the slice unchanged. -/
theorem setRange_getElem_ge {α : Type} {xs : List α} {start : Nat}
    {vals : List α} {j : Nat} (hb : start + vals.length ≤ xs.length)
    (hj : start + vals.length ≤ j) : (setRange xs start vals)[j]? = xs[j]? := by
  unfold setRange
  rw [List.getElem?_append_right (by simp; omega)]
  rw [List.getElem?_drop]
  congr 1
  simp
  omega

/-- The fold seed bounds `List.foldl max` from below. -/
theorem le_foldl_max (a : Nat) (xs : List Nat) : a ≤ xs.foldl max a := by
  induction xs generalizing a with
  | nil => simp
  | cons x xs ih =>
    exact le_trans (Nat.le_max_left a x) (ih (max a x))

/-- Every member bounds `List.foldl max` from below. -/
theorem mem_le_foldl_max {x : Nat} {xs : List Nat} (a : Nat) (h : x ∈ xs) :
    x ≤ xs.foldl max a := by
  induction xs generalizing a with
  | nil => cases h
  | cons y ys ih =>
    cases h with
    | head => exact le_trans (Nat.le_max_right a x) (le_foldl_max _ _)
    | tail _ hm => exact ih _ hm

/-- Python `max`: every member is at most the maximum. -/
theorem le_maxNat {x : Nat} {xs : List Nat} (h : x ∈ xs) : x ≤ maxNat xs := by
  cases xs with
  | nil => cases h
  | cons y ys =>
    cases h with
    | head => exact le_foldl_max _ _
    | tail _ hm => exact mem_le_foldl_max y hm

/-- Frame stacking produces `ceil(T / num_skip)` output frames. -/
theorem stack_frame_rows_length (a : FeatArr) (ns nk : Nat) :
    (stack_frame a ns nk).rows.length = ceilDiv a.rows.length nk := by
  simp [stack_frame]

/-- Splicing preserves the time length. -/
theorem do_splice_rows_length (a : FeatArr) (sp ns : Nat) :
    (do_splice a sp ns).rows.length = a.rows.length := by
  simp [do_splice]

/-- A written input row spans exactly the allocated `Tmax` frames. -/
theorem inputRowOf_length {d : Dataset} {Tmax width : Nat} {a : FeatArr}
    (h : frameNum d a ≤ Tmax) : (inputRowOf d Tmax width a).length = Tmax := by
  simp only [inputRowOf, List.length_append, List.length_replicate,
    transformed, do_splice_rows_length, frameNum] at h ⊢
  omega

/-- A sequence-generation row has the allocated width. -/
theorem attRow_length {L : Nat} {p s e : LabelCell} {vals : List LabelCell}
    (hL : vals.length + 2 ≤ L) : (attRow L p s e vals).length = L := by
  unfold attRow
  rw [List.length_set, setRange_length (by simp; omega), List.length_set,
    List.length_replicate]

/-- A sequence-generation row starts with SOS. -/
theorem attRow_getElem_zero {L : Nat} {p s e : LabelCell} {vals : List LabelCell}
    (hL : vals.length + 2 ≤ L) : (attRow L p s e vals)[0]? = some s := by
  unfold attRow
  rw [List.getElem?_set_ne (by omega)]
  rw [setRange_getElem_lt (by simp; omega) (by omega)]
  rw [List.getElem?_set_self (by simp; omega)]

/-- A sequence-generation row carries token cell `k` at position `k + 1`. -/
theorem attRow_getElem_tok {L : Nat} {p s e : LabelCell} {vals : List LabelCell}
    {k : Nat} (hL : vals.length + 2 ≤ L) (hk : k < vals.length) :
    (attRow L p s e vals)[k + 1]? = vals[k]? := by
  unfold attRow
  rw [List.getElem?_set_ne (by omega)]
  rw [setRange_getElem_mid (by simp; omega) (by omega) (by omega)]
  simp

/-- A sequence-generation row carries EOS right after the tokens. -/
theorem attRow_getElem_eos {L : Nat} {p s e : LabelCell} {vals : List LabelCell}
    (hL : vals.length + 2 ≤ L) :
    (attRow L p s e vals)[vals.length + 1]? = some e := by
  unfold attRow
  rw [List.getElem?_set_self]
  rw [setRange_length (by simp; omega), List.length_set, List.length_replicate]
  omega

/-- A sequence-generation row is padding beyond position `vals.length+1`. -/
theorem attRow_getElem_pad {L : Nat} {p s e : LabelCell} {vals : List LabelCell}
    {j : Nat} (hL : vals.length + 2 ≤ L) (hj : vals.length + 2 ≤ j)
    (hjL : j < L) : (attRow L p s e vals)[j]? = some p := by
  unfold attRow
  rw [List.getElem?_set_ne (by omega)]
  rw [setRange_getElem_ge (by simp; omega) (by omega)]
  rw [List.getElem?_set_ne (by omega)]
  rw [List.getElem?_replicate]
  simp [hjL]

/-- A frame-synchronous row has the allocated width. -/
theorem ctcRow_length {L : Nat} {p : LabelCell} {vals : List LabelCell}
    (hL : vals.length ≤ L) : (ctcRow L p vals).length = L := by
  unfold ctcRow
  rw [setRange_length (by simp; omega), List.length_replicate]

/-- A frame-synchronous row carries token cell `k` at position `k`. -/
theorem ctcRow_getElem_tok {L : Nat} {p : LabelCell} {vals : List LabelCell}
    {k : Nat} (hL : vals.length ≤ L) (hk : k < vals.length) :
    (ctcRow L p vals)[k]? = vals[k]? := by
  unfold ctcRow
  rw [setRange_getElem_mid (by simp; omega) (by omega) (by omega)]
  simp

/-- A frame-synchronous row is padding beyond the tokens. -/
theorem ctcRow_getElem_pad {L : Nat} {p : LabelCell} {vals : List LabelCell}
    {j : Nat} (hL : vals.length ≤ L) (hj : vals.length ≤ j) (hjL : j < L) :
    (ctcRow L p vals)[j]? = some p := by
  unfold ctcRow
  rw [setRange_getElem_ge (by simp; omega) (by omega)]
  rw [List.getElem?_replicate]
  simp [hjL]

/-- An evaluation-split row has the allocated width. -/
theorem testRow_length {L : Nat} {p : LabelCell} {t : String} :
    (testRow L p t).length = L := by
  simp [testRow]

/-- An evaluation-split row holds the raw transcript at position 0. -/
theorem testRow_getElem_zero {L : Nat} {p : LabelCell} {t : String}
    (hL : 0 < L) : (testRow L p t)[0]? = some (LabelCell.raw t) := by
  unfold testRow
  rw [List.getElem?_set_self (by simpa using hL)]

/-- An evaluation-split row keeps padding everywhere past position 0. -/
theorem testRow_getElem_pad {L : Nat} {p : LabelCell} {t : String} {j : Nat}
    (hj : 1 ≤ j) (hjL : j < L) : (testRow L p t)[j]? = some p := by
  unfold testRow
  rw [List.getElem?_set_ne (by omega)]
  rw [List.getElem?_replicate]
  simp [hjL]

/-- A successful cache resolution only sets `input_size`, and agrees with a
previously cached value. -/
theorem resolveInputSize_ok {d : Dataset} {ps : List String} {isz : Nat}
    {d' : Dataset} (h : resolveInputSize d ps = Except.ok (isz, d')) :
    d' = { d with input_size := some isz } ∧
      ∀ v, d.input_size = some v → v = isz := by
  unfold resolveInputSize at h
  cases hc : d.input_size with
  | some sz =>
    rw [hc] at h
    simp only [Except.ok.injEq, Prod.mk.injEq] at h
    obtain ⟨h1, h2⟩ := h
    subst h1
    subst h2
    refine ⟨?_, ?_⟩
    · rw [← hc]
    · intro v hv
      exact (Option.some.inj hv).symm
  | none =>
    rw [hc] at h
    dsimp only at h
    cases hp : ps.head? with
    | none => rw [hp] at h; exact absurd h (by simp)
    | some p =>
      rw [hp] at h
      dsimp only at h
      cases hl : load_file d p with
      | error e => rw [hl] at h; exact absurd h (by simp)
      | ok a =>
        rw [hl] at h
        simp only [Except.ok.injEq, Prod.mk.injEq] at h
        obtain ⟨h1, h2⟩ := h
        subst h1
        refine ⟨h2.symm, ?_⟩
        intro v hv
        exact absurd hv (by simp)

/-- Inversion of a successful `make_batch` into its stages. -/
theorem make_batch_ok_parts {d : Dataset} {idxs : List Nat} {b : Batch}
    {d₂ : Dataset} (h : make_batch d idxs = (Except.ok b, d₂)) :
    ∃ recs recs_sub isz,
      getAll d.df idxs = some recs ∧
      getAll d.df_sub idxs = some recs_sub ∧
      resolveInputSize d (recs.map Record.input_path) = Except.ok (isz, d₂) ∧
      make_batch_core d₂ isz recs recs_sub = Except.ok b := by
  unfold make_batch at h
  cases hg : getAll d.df idxs with
  | none => rw [hg] at h; simp at h
  | some recs =>
    rw [hg] at h
    cases hg2 : getAll d.df_sub idxs with
    | none => rw [hg2] at h; simp at h
    | some recs_sub =>
      rw [hg2] at h
      simp only at h
      cases hr : resolveInputSize d (recs.map Record.input_path) with
      | error e => rw [hr] at h; simp at h
      | ok pr =>
        obtain ⟨isz, d'⟩ := pr
        rw [hr] at h
        simp only [Prod.mk.injEq] at h
        obtain ⟨h1, h2⟩ := h
        subst h2
        exact ⟨recs, recs_sub, isz, rfl, rfl, hr, h1⟩

/-- Inversion of a successful `make_batch_core` into its stages. -/
theorem make_batch_core_ok {d' : Dataset} {isz : Nat}
    {recs recs_sub : List Record} {b : Batch}
    (h : make_batch_core d' isz recs recs_sub = Except.ok b) :
    recs ≠ [] ∧ d'.num_skip ≠ 0 ∧
    ∃ rows, mapE (fun x => processExample d' (tmaxOf d' recs) (lmaxOf recs)
        (lmaxOf recs_sub) (isz * d'.splice) x.1 x.2.1 x.2.2)
        (zip3 recs recs_sub) = Except.ok rows ∧
      b = mkBatch rows ((recs.map Record.input_path).map inputName) := by
  unfold make_batch_core at h
  by_cases h1 : recs.map Record.frame_num = []
  · rw [if_pos h1] at h; simp at h
  · rw [if_neg h1] at h
    by_cases h2 : d'.num_skip = 0
    · rw [if_pos h2] at h; simp at h
    · rw [if_neg h2] at h
      cases hm : mapE (fun x => processExample d' (tmaxOf d' recs) (lmaxOf recs)
          (lmaxOf recs_sub) (isz * d'.splice) x.1 x.2.1 x.2.2)
          (zip3 recs recs_sub) with
      | error e => rw [hm] at h; simp at h
      | ok rows =>
        rw [hm] at h
        simp only [Except.ok.injEq] at h
        refine ⟨?_, h2, rows, rfl, h.symm⟩
        intro hnil
        exact h1 (by rw [hnil]; rfl)

/-- Reading one entry of the zipped per-example data. -/
theorem zip3_getElem {recs recs_sub : List Record} {i : Nat}
    {rec rec' : Record} (h1 : recs[i]? = some rec)
    (h2 : recs_sub[i]? = some rec') :
    (zip3 recs recs_sub)[i]? =
      some (rec.input_path, rec.transcript, rec'.transcript) := by
  unfold zip3
  rw [List.getElem?_zip_eq_some]
  refine ⟨by simp [h1], ?_⟩
  rw [List.getElem?_zip_eq_some]
  exact ⟨by simp [h1], by simp [h2]⟩

/-- Decomposing one entry of the zipped per-example data. -/
theorem zip3_getElem_inv {recs recs_sub : List Record} {i : Nat}
    {x : String × String × String}
    (h : (zip3 recs recs_sub)[i]? = some x) :
    ∃ rec rec', recs[i]? = some rec ∧ recs_sub[i]? = some rec' ∧
      x = (rec.input_path, rec.transcript, rec'.transcript) := by
  unfold zip3 at h
  rw [List.getElem?_zip_eq_some] at h
  obtain ⟨ha, hb⟩ := h
  rw [List.getElem?_zip_eq_some] at hb
  obtain ⟨hb1, hb2⟩ := hb
  simp only [List.getElem?_map] at ha hb1 hb2
  cases hrec : recs[i]? with
  | none => rw [hrec] at ha; simp at ha
  | some rec =>
    cases hrec2 : recs_sub[i]? with
    | none => rw [hrec2] at hb2; simp at hb2
    | some rec' =>
      rw [hrec] at ha hb1
      rw [hrec2] at hb2
      simp only [Option.map_some', Option.some.injEq] at ha hb1 hb2
      refine ⟨rec, rec', rfl, rfl, ?_⟩
      rw [ha, hb1, hb2]

/-- Full inversion of a successful per-example iteration. -/
theorem processExample_ok_inv {d : Dataset} {Tmax L Lsub width : Nat}
    {path tr trSub : String} {row : Row}
    (h : processExample d Tmax L Lsub width path tr trSub = Except.ok row) :
    ∃ a, load_file d path = Except.ok a ∧
      frameNum d a ≤ Tmax ∧ (transformed d a).ncol = width ∧
      row.input_row = inputRowOf d Tmax width a ∧
      row.input_len = frameNum d a ∧
      ((d.is_test = true ∧
          row.label_row = testRow L (LabelCell.idx d.pad_value) tr ∧
          row.label_len = 0 ∧
          row.label_row_sub = testRow Lsub (LabelCell.idx d.pad_value_sub) trSub ∧
          row.label_len_sub = 0) ∨
        (d.is_test = false ∧ ∃ ind indSub,
          parseIndices tr = some ind ∧ parseIndices trSub = some indSub ∧
          ((d.model_type = "hierarchical_attention" ∧
              row.label_row = attRow L (LabelCell.idx d.pad_value)
                (LabelCell.idx d.sos_index) (LabelCell.idx d.eos_index)
                (ind.map LabelCell.idx) ∧
              row.label_len = ind.length + 2 ∧
              row.label_row_sub = attRow Lsub (LabelCell.idx d.pad_value_sub)
                (LabelCell.idx d.sos_index_sub) (LabelCell.idx d.eos_index_sub)
                (indSub.map LabelCell.idx) ∧
              row.label_len_sub = indSub.length + 2) ∨
            (d.model_type = "hierarchical_ctc" ∧
              row.label_row = ctcRow L (LabelCell.idx d.pad_value)
                (ind.map LabelCell.idx) ∧
              row.label_len = ind.length ∧
              row.label_row_sub = ctcRow Lsub (LabelCell.idx d.pad_value_sub)
                (indSub.map LabelCell.idx) ∧
              row.label_len_sub = indSub.length)))) := by
  unfold processExample at h
  cases hl : load_file d path with
  | error e => rw [hl] at h; exact absurd h (by simp)
  | ok a =>
    rw [hl] at h
    dsimp only at h
    by_cases hb : frameNum d a ≤ Tmax ∧ (transformed d a).ncol = width
    case neg => rw [if_neg hb] at h; exact absurd h (by simp)
    case pos =>
    rw [if_pos hb] at h
    cases ht : d.is_test with
    | true =>
      rw [ht, if_pos rfl] at h
      simp only [Except.ok.injEq] at h
      subst h
      exact ⟨a, rfl, hb.1, hb.2, rfl, rfl, Or.inl ⟨rfl, rfl, rfl, rfl, rfl⟩⟩
    | false =>
      rw [ht, if_neg (by simp)] at h
      cases hp1 : parseIndices tr with
      | none => rw [hp1] at h; exact absurd h (by simp)
      | some ind =>
        rw [hp1] at h
        cases hp2 : parseIndices trSub with
        | none => rw [hp2] at h; exact absurd h (by simp)
        | some indSub =>
          rw [hp2] at h
          dsimp only at h
          by_cases hm1 : d.model_type = "hierarchical_attention"
          · rw [if_pos hm1] at h
            simp only [Except.ok.injEq] at h
            subst h
            exact ⟨a, rfl, hb.1, hb.2, rfl, rfl, Or.inr ⟨rfl, ind, indSub,
              rfl, rfl, Or.inl ⟨hm1, rfl, rfl, rfl, rfl⟩⟩⟩
          · rw [if_neg hm1] at h
            by_cases hm2 : d.model_type = "hierarchical_ctc"
            · rw [if_pos hm2] at h
              simp only [Except.ok.injEq] at h
              subst h
              exact ⟨a, rfl, hb.1, hb.2, rfl, rfl, Or.inr ⟨rfl, ind, indSub,
                rfl, rfl, Or.inr ⟨hm2, rfl, rfl, rfl, rfl⟩⟩⟩
            · rw [if_neg hm2] at h
              exact absurd h (by simp)

/-- Every successfully processed example fits its allocated time slice. -/
theorem processExample_ok_input {d : Dataset} {Tmax L Lsub width : Nat}
    {path tr trSub : String} {row : Row}
    (h : processExample d Tmax L Lsub width path tr trSub = Except.ok row) :
    row.input_len ≤ Tmax ∧ row.input_row.length = Tmax := by
  obtain ⟨a, _, hb1, _, h4, h5, _⟩ := processExample_ok_inv h
  refine ⟨?_, ?_⟩
  · rw [h5]; exact hb1
  · rw [h4]; exact inputRowOf_length hb1

/-- Every successfully processed example has label rows of the allocated
widths, and on training splits everything beyond the recorded length is the
task's pad cell. -/
theorem processExample_ok_labels {d : Dataset} {Tmax L Lsub width : Nat}
    {path tr trSub : String} {row : Row}
    (h : processExample d Tmax L Lsub width path tr trSub = Except.ok row)
    (htr : tokenCount tr + 2 ≤ L) (htrSub : tokenCount trSub + 2 ≤ Lsub) :
    row.label_row.length = L ∧ row.label_row_sub.length = Lsub ∧
    (d.is_test = false →
      (∀ j, row.label_len ≤ j → j < L →
        row.label_row[j]? = some (LabelCell.idx d.pad_value)) ∧
      (∀ j, row.label_len_sub ≤ j → j < Lsub →
        row.label_row_sub[j]? = some (LabelCell.idx d.pad_value_sub))) := by
  obtain ⟨a, _, _, _, _, _, hlab⟩ := processExample_ok_inv h
  cases hlab with
  | inl htest =>
    obtain ⟨ht, hr, hn, hrs, hns⟩ := htest
    refine ⟨by rw [hr]; exact testRow_length, by rw [hrs]; exact testRow_length, ?_⟩
    intro hf
    rw [ht] at hf
    exact absurd hf (by simp)
  | inr htrain =>
    obtain ⟨ht, ind, indSub, hp1, hp2, hcase⟩ := htrain
    have hlen1 : ind.length = tokenCount tr := parseIndices_length hp1
    have hlen2 : indSub.length = tokenCount trSub := parseIndices_length hp2
    cases hcase with
    | inl hatt =>
      obtain ⟨hm, hr, hn, hrs, hns⟩ := hatt
      refine ⟨?_, ?_, ?_⟩
      · rw [hr]; exact attRow_length (by simp [hlen1]; omega)
      · rw [hrs]; exact attRow_length (by simp [hlen2]; omega)
      · intro _
        refine ⟨?_, ?_⟩
        · intro j hj hjL
          rw [hr]
          exact attRow_getElem_pad (by simp [hlen1]; omega)
            (by simp; rw [hn] at hj; omega) hjL
        · intro j hj hjL
          rw [hrs]
          exact attRow_getElem_pad (by simp [hlen2]; omega)
            (by simp; rw [hns] at hj; omega) hjL
    | inr hctc =>
      obtain ⟨hm, hr, hn, hrs, hns⟩ := hctc
      refine ⟨?_, ?_, ?_⟩
      · rw [hr]; exact ctcRow_length (by simp [hlen1]; omega)
      · rw [hrs]; exact ctcRow_length (by simp [hlen2]; omega)
      · intro _
        refine ⟨?_, ?_⟩
        · intro j hj hjL
          rw [hr]
          exact ctcRow_getElem_pad (by simp [hlen1]; omega)
            (by simp; rw [hn] at hj; omega) hjL
        · intro j hj hjL
          rw [hrs]
          exact ctcRow_getElem_pad (by simp [hlen2]; omega)
            (by simp; rw [hns] at hj; omega) hjL

/-- An unrecognized `save_format` makes every load raise `TypeError`. -/
theorem load_file_bad_format {d : Dataset} {p : String}
    (h1 : d.save_format ≠ "numpy") (h2 : d.save_format ≠ "htk") :
    load_file d p = Except.error "TypeError" := by
  unfold load_file
  rw [if_neg h1, if_neg h2]

/-- An unrecognized `save_format` fails the per-example loop body. -/
theorem processExample_bad_format {d : Dataset} {Tmax L Lsub width : Nat}
    {path tr trSub : String}
    (h1 : d.save_format ≠ "numpy") (h2 : d.save_format ≠ "htk") :
    processExample d Tmax L Lsub width path tr trSub =
      Except.error "TypeError" := by
  unfold processExample
  rw [load_file_bad_format h1 h2]

/-- On a training split an unrecognized `model_type` fails the per-example
loop body with some raised error. -/
theorem processExample_bad_model {d : Dataset} {Tmax L Lsub width : Nat}
    {path tr trSub : String} (htest : d.is_test = false)
    (hm1 : d.model_type ≠ "hierarchical_attention")
    (hm2 : d.model_type ≠ "hierarchical_ctc") :
    ∃ e, processExample d Tmax L Lsub width path tr trSub =
      Except.error e := by
  unfold processExample
  cases hl : load_file d path with
  | error e => exact ⟨e, rfl⟩
  | ok a =>
    dsimp only
    by_cases hb : frameNum d a ≤ Tmax ∧ (transformed d a).ncol = width
    case neg =>
      rw [if_neg hb]
      exact ⟨_, rfl⟩
    case pos =>
    rw [if_pos hb, htest, if_neg (by simp)]
    cases hp1 : parseIndices tr with
    | none => exact ⟨_, rfl⟩
    | some ind =>
      cases hp2 : parseIndices trSub with
      | none => exact ⟨_, rfl⟩
      | some indSub =>
        dsimp only
        rw [if_neg hm1, if_neg hm2]
        exact ⟨_, rfl⟩

/-- `zip3` unfolds one step on cons cells. -/
theorem zip3_cons {r r' : Record} {rs rs' : List Record} :
    zip3 (r :: rs) (r' :: rs') =
      (r.input_path, r.transcript, r'.transcript) :: zip3 rs rs' := rfl

/-- The raw token count of any gathered row fits under the allocated label
width `lmaxOf`. -/
theorem tokenCount_le_lmaxOf {recs : List Record} {i : Nat} {rec : Record}
    (h : recs[i]? = some rec) :
    tokenCount rec.transcript + 2 ≤ lmaxOf recs := by
  have hmem : rec ∈ recs := List.getElem?_mem h
  have hmem2 : tokenCount rec.transcript ∈
      (recs.map Record.transcript).map tokenCount :=
    List.mem_map_of_mem _ (List.mem_map_of_mem _ hmem)
  have hle := le_maxNat hmem2
  unfold lmaxOf
  omega

/-- Full inversion of a successful `make_batch`, with both directions of
the per-row correspondence between gathered records and filled rows. -/
theorem make_batch_ok_rows {d : Dataset} {idxs : List Nat} {b : Batch}
    {d₂ : Dataset} (hok : make_batch d idxs = (Except.ok b, d₂)) :
    ∃ recs recs_sub isz rows,
      getAll d.df idxs = some recs ∧
      getAll d.df_sub idxs = some recs_sub ∧
      d₂ = { d with input_size := some isz } ∧
      recs ≠ [] ∧
      b = mkBatch rows ((recs.map Record.input_path).map inputName) ∧
      rows.length = recs.length ∧
      recs_sub.length = recs.length ∧
      (∀ (i : Nat) (rec rec' : Record),
        recs[i]? = some rec → recs_sub[i]? = some rec' →
        ∃ row, rows[i]? = some row ∧
          processExample d₂ (tmaxOf d₂ recs) (lmaxOf recs) (lmaxOf recs_sub)
            (isz * d₂.splice) rec.input_path rec.transcript rec'.transcript =
            Except.ok row) ∧
      (∀ (i : Nat) (row : Row), rows[i]? = some row →
        ∃ rec rec', recs[i]? = some rec ∧ recs_sub[i]? = some rec' ∧
          processExample d₂ (tmaxOf d₂ recs) (lmaxOf recs) (lmaxOf recs_sub)
            (isz * d₂.splice) rec.input_path rec.transcript rec'.transcript =
            Except.ok row) := by
  obtain ⟨recs, recs_sub, isz, hg, hg2, hr, hc⟩ := make_batch_ok_parts hok
  obtain ⟨hshape, _⟩ := resolveInputSize_ok hr
  obtain ⟨hnil, hskip, rows, hm, hb⟩ := make_batch_core_ok hc
  have hlen_sub : recs_sub.length = recs.length := by
    rw [getAll_length hg2, getAll_length hg]
  have hz3 : (zip3 recs recs_sub).length = recs.length := by
    simp [zip3, hlen_sub]
  have hrows : rows.length = recs.length := by
    rw [mapE_length hm, hz3]
  refine ⟨recs, recs_sub, isz, rows, hg, hg2, hshape, hnil, hb, hrows,
    hlen_sub, ?_, ?_⟩
  · intro i rec rec' hi hi2
    exact mapE_get hm (zip3_getElem hi hi2)
  · intro i row hi
    have hilt : i < rows.length := by
      by_contra hge
      rw [List.getElem?_eq_none (by omega)] at hi
      exact Option.noConfusion hi
    cases hx : (zip3 recs recs_sub)[i]? with
    | none =>
      rw [List.getElem?_eq_none_iff] at hx
      omega
    | some x =>
      obtain ⟨rec, rec', hrec, hrec2, hxeq⟩ := zip3_getElem_inv hx
      obtain ⟨y, hy, hf⟩ := mapE_get hm hx
      rw [hi] at hy
      have hyrow : y = row := (Option.some.inj hy).symm
      subst hyrow
      subst hxeq
      exact ⟨rec, rec', hrec, hrec2, hf⟩

/-- The post-call state of any `make_batch` call differs from the pre-call
state at most in the `input_size` cache, and an already cached value is
kept. -/
theorem make_batch_state (d : Dataset) (idxs : List Nat) :
    ∃ o, (make_batch d idxs).2 = { d with input_size := o } ∧
      ∀ v, d.input_size = some v → o = some v := by
  unfold make_batch
  cases hg : getAll d.df idxs with
  | none =>
    refine ⟨d.input_size, rfl, ?_⟩
    intro v hv
    exact hv
  | some recs =>
    cases hg2 : getAll d.df_sub idxs with
    | none =>
      refine ⟨d.input_size, rfl, ?_⟩
      intro v hv
      exact hv
    | some recs_sub =>
      dsimp only
      cases hr : resolveInputSize d (recs.map Record.input_path) with
      | error e =>
        refine ⟨d.input_size, rfl, ?_⟩
        intro v hv
        exact hv
      | ok pr =>
        obtain ⟨isz, d'⟩ := pr
        obtain ⟨hshape, hmono⟩ := resolveInputSize_ok hr
        refine ⟨some isz, hshape, ?_⟩
        intro v hv
        rw [hmono v hv]

/-- If the per-example body fails on every input under the configuration
fields of the resolved state, the whole `make_batch` raises. -/
theorem make_batch_error_of (d : Dataset) (idxs : List Nat)
    (hpe : ∀ (d₂ : Dataset) (Tmax L Lsub width : Nat) (p t ts : String),
      d₂.is_test = d.is_test → d₂.model_type = d.model_type →
      d₂.save_format = d.save_format →
      ∃ e, processExample d₂ Tmax L Lsub width p t ts = Except.error e) :
    ∃ e, (make_batch d idxs).1 = Except.error e := by
  cases hres : (make_batch d idxs).1 with
  | error e => exact ⟨e, rfl⟩
  | ok b =>
    exfalso
    have h : make_batch d idxs = (Except.ok b, (make_batch d idxs).2) := by
      rw [← hres]
    obtain ⟨recs, recs_sub, isz, hg, hg2, hr, hc⟩ := make_batch_ok_parts h
    obtain ⟨hnil, hskip, rows, hm, hb⟩ := make_batch_core_ok hc
    obtain ⟨hshape, _⟩ := resolveInputSize_ok hr
    have hlen_sub : recs_sub.length = recs.length := by
      rw [getAll_length hg2, getAll_length hg]
    cases recs with
    | nil => exact hnil rfl
    | cons r rs =>
      cases recs_sub with
      | nil => simp at hlen_sub
      | cons r' rs' =>
        rw [zip3_cons] at hm
        obtain ⟨e, hpe1⟩ := hpe (make_batch d idxs).2 (tmaxOf (make_batch d idxs).2 (r :: rs))
          (lmaxOf (r :: rs)) (lmaxOf (r' :: rs')) (isz * (make_batch d idxs).2.splice)
          r.input_path r.transcript r'.transcript
          (by rw [hshape]) (by rw [hshape]) (by rw [hshape])
        have hcontr : mapE (fun x =>
            processExample (make_batch d idxs).2 (tmaxOf (make_batch d idxs).2 (r :: rs))
              (lmaxOf (r :: rs)) (lmaxOf (r' :: rs'))
              (isz * (make_batch d idxs).2.splice) x.1 x.2.1 x.2.2)
            ((r.input_path, r.transcript, r'.transcript) :: zip3 rs rs') =
            Except.error e := mapE_cons_error hpe1
        rw [hm] at hcontr
        exact Except.noConfusion hcontr

/-- C9: batch construction is deterministic — a second `make_batch` call on
the same index subset with the corpus state left by the first call returns
the bit-identical batch and leaves the state unchanged. -/
theorem claim_c9_deterministic (d : Dataset) (idxs : List Nat) (b : Batch)
    (d₂ : Dataset) (h : make_batch d idxs = (Except.ok b, d₂)) :
    make_batch d₂ idxs = (Except.ok b, d₂) := by
  obtain ⟨recs, recs_sub, isz, hg, hg2, hr, hc⟩ := make_batch_ok_parts h
  obtain ⟨hshape, _⟩ := resolveInputSize_ok hr
  have hdf : d₂.df = d.df := by rw [hshape]
  have hdfs : d₂.df_sub = d.df_sub := by rw [hshape]
  have hin : d₂.input_size = some isz := by rw [hshape]
  unfold make_batch
  rw [hdf, hdfs, hg, hg2]
  dsimp only
  have hres : resolveInputSize d₂ (recs.map Record.input_path) =
      Except.ok (isz, d₂) := by
    unfold resolveInputSize
    rw [hin]
  rw [hres]
  dsimp only
  rw [hc]

theorem claim_c9_witness :
    make_batch dsAttnCached [0] = (Except.ok bAttn, dsAttnCached) :=
  claim_c9_deterministic dsAttn [0] bAttn dsAttnCached (by decide)

/-- C10: `make_batch` never modifies the corpus dataframes, the filesystem
or any configuration field — the post-call state can differ from the
pre-call state only in the `input_size` cache — and a value cached by an
earlier call is never changed. -/
theorem claim_c10_frame (d : Dataset) (idxs : List Nat) :
    ((make_batch d idxs).2.df = d.df ∧
      (make_batch d idxs).2.df_sub = d.df_sub ∧
      (make_batch d idxs).2.is_test = d.is_test ∧
      (make_batch d idxs).2.model_type = d.model_type ∧
      (make_batch d idxs).2.save_format = d.save_format ∧
      (make_batch d idxs).2.splice = d.splice ∧
      (make_batch d idxs).2.num_stack = d.num_stack ∧
      (make_batch d idxs).2.num_skip = d.num_skip ∧
      (make_batch d idxs).2.pad_value = d.pad_value ∧
      (make_batch d idxs).2.pad_value_sub = d.pad_value_sub ∧
      (make_batch d idxs).2.sos_index = d.sos_index ∧
      (make_batch d idxs).2.eos_index = d.eos_index ∧
      (make_batch d idxs).2.sos_index_sub = d.sos_index_sub ∧
      (make_batch d idxs).2.eos_index_sub = d.eos_index_sub ∧
      (make_batch d idxs).2.npy_files = d.npy_files ∧
      (make_batch d idxs).2.htk_files = d.htk_files) ∧
    (∀ v, d.input_size = some v →
      (make_batch d idxs).2.input_size = some v) := by
  obtain ⟨o, ho, hmono⟩ := make_batch_state d idxs
  rw [ho]
  refine ⟨⟨rfl, rfl, rfl, rfl, rfl, rfl, rfl, rfl, rfl, rfl, rfl, rfl, rfl,
    rfl, rfl, rfl⟩, ?_⟩
  intro v hv
  show o = some v
  rw [hmono v hv]

theorem claim_c10_witness :
    (make_batch dsAttnCached [0]).2.input_size = some 1 :=
  (claim_c10_frame dsAttnCached [0]).2 1 rfl

/-- C8: `make_batch` raises whenever `save_format` is neither `numpy` nor
`htk`, and, on non-evaluation splits, whenever `model_type` is neither
`hierarchical_attention` nor `hierarchical_ctc`; no batch is returned. -/
theorem claim_c8_config_errors (d : Dataset) (idxs : List Nat) :
    (d.save_format ≠ "numpy" → d.save_format ≠ "htk" →
      ∃ e, (make_batch d idxs).1 = Except.error e) ∧
    (d.is_test = false → d.model_type ≠ "hierarchical_attention" →
      d.model_type ≠ "hierarchical_ctc" →
      ∃ e, (make_batch d idxs).1 = Except.error e) := by
  constructor
  · intro h1 h2
    apply make_batch_error_of
    intro d₂ Tmax L Lsub width p t ts h_t h_m h_s
    exact ⟨"TypeError", processExample_bad_format
      (by rw [h_s]; exact h1) (by rw [h_s]; exact h2)⟩
  · intro ht h1 h2
    apply make_batch_error_of
    intro d₂ Tmax L Lsub width p t ts h_t h_m h_s
    exact processExample_bad_model (by rw [h_t]; exact ht)
      (by rw [h_m]; exact h1) (by rw [h_m]; exact h2)

theorem claim_c8_witness :
    dsBadFormat.save_format ≠ "numpy" ∧
    dsBadModel.model_type ≠ "hierarchical_attention" ∧
    (∃ e, (make_batch dsBadFormat [0]).1 = Except.error e) ∧
    (∃ e, (make_batch dsBadModel [0]).1 = Except.error e) :=
  ⟨by decide, by decide,
    (claim_c8_config_errors dsBadFormat [0]).1 (by decide) (by decide),
    (claim_c8_config_errors dsBadModel [0]).2 rfl (by decide) (by decide)⟩

/-- C4: evaluation of the code at the failing input `splice = 2`. The
cached `input_size` is the spec's feature width `F = 2·1·2 = 4` and the
transformed rows are exactly 4 wide, but the tensor is allocated with
feature width `input_size * splice = 8` (line 86 multiplies by `splice`
again), so the row write fails with a broadcast error instead of exactly
filling the allocated width as the claim states. -/
theorem claim_c4_code_bug :
    dsSplice2.splice = 2 ∧
    (transformed dsSplice2 ⟨[[7, 8], [9, 10]], 2⟩).ncol = 4 ∧
    (make_batch dsSplice2 [0]).2.input_size = some 4 ∧
    4 * dsSplice2.splice = 8 ∧
    (make_batch dsSplice2 [0]).1 =
      Except.error "ValueError: could not broadcast" := by
  decide

/-- C5 counterexample: on the non-evaluation split `dev`, a manifest of
4001 identical records — none of which satisfies the claimed drop
condition — loses one record to the `df[:4000]` truncation, so "dropped iff
the joint/ceiling condition" is false as stated. -/
theorem claim_c5_counterexample :
    containsSub "dev" "eval" = false ∧
    dropClaimC5 "word_freq1" rGood = false ∧
    (List.replicate 4001 rGood).length = 4001 ∧
    (filter_df "dev" "word_freq1" (List.replicate 4001 rGood)).length = 4000 := by
  have h1 : containsSub "dev" "eval" = false := by decide
  have h2 : (!(dropJoint "word_freq1" rGood)) = true := by decide
  have h3 : (decide (rGood.frame_num ≤ 1580)) = true := by decide
  refine ⟨h1, by decide, by rw [List.length_replicate], ?_⟩
  simp only [filter_df, h1, Bool.false_eq_true, if_false, if_true,
    List.filter_replicate, h2, h3, if_pos rfl, List.take_replicate,
    List.length_replicate]
  omega

/-- C5 amended: on evaluation splits every record is kept; on
non-evaluation splits other than `dev` a record is dropped exactly when
(token count below the label-type threshold AND at least 1000 frames) OR
above 1580 frames; on the `dev` split additionally only the first 4000
surviving records are kept. -/
theorem claim_c5_amended (dt lt : String) (df : List Record) :
    (containsSub dt "eval" = true → filter_df dt lt df = df) ∧
    (containsSub dt "eval" = false → dt ≠ "dev" →
      filter_df dt lt df = df.filter (fun r => !(dropClaimC5 lt r))) ∧
    (containsSub dt "eval" = false → dt = "dev" →
      filter_df dt lt df =
        (df.filter (fun r => !(dropClaimC5 lt r))).take 4000) := by
  have hpred : ∀ r : Record,
      (decide (r.frame_num ≤ 1580) && !(dropJoint lt r)) =
        !(dropClaimC5 lt r) := by
    intro r
    unfold dropClaimC5
    by_cases hf : r.frame_num ≤ 1580 <;>
      cases hd : dropJoint lt r <;>
        simp [hd, hf, Nat.not_le.mp, Nat.lt_of_not_le]
  refine ⟨?_, ?_, ?_⟩
  · intro he
    unfold filter_df
    rw [if_pos he]
  · intro he hd
    unfold filter_df
    rw [if_neg (by simp [he]), if_neg hd, List.filter_filter]
    simp only [hpred]
  · intro he hd
    unfold filter_df
    rw [if_neg (by simp [he]), if_pos hd, List.filter_filter]
    simp only [hpred]

theorem claim_c5_witness :
    containsSub "dev" "eval" = false ∧
    filter_df "dev" "word_freq1" dfSmall =
      (dfSmall.filter (fun r => !(dropClaimC5 "word_freq1" r))).take 4000 :=
  ⟨by decide, (claim_c5_amended "dev" "word_freq1" dfSmall).2.2 (by decide) rfl⟩

/-- C2: for every batch `make_batch` returns, the allocated time dimension
of `inputs` is `ceil(max manifest frame_num / num_skip)` and the allocated
label dimensions are (max RAW token count) + 2 per task, with the `+ 2`
added exactly once and independently of the model family. -/
theorem claim_c2_batch_maxima (d : Dataset) (idxs : List Nat) (b : Batch)
    (d₂ : Dataset) (recs recs_sub : List Record)
    (hok : make_batch d idxs = (Except.ok b, d₂))
    (hrecs : getAll d.df idxs = some recs)
    (hrecs2 : getAll d.df_sub idxs = some recs_sub) :
    recs ≠ [] ∧
    (∀ row ∈ b.inputs,
      row.length = ceilDiv (maxNat (recs.map Record.frame_num)) d.num_skip) ∧
    (∀ row ∈ b.labels,
      row.length = maxNat ((recs.map Record.transcript).map tokenCount) + 2) ∧
    (∀ row ∈ b.labels_sub,
      row.length =
        maxNat ((recs_sub.map Record.transcript).map tokenCount) + 2) := by
  obtain ⟨recs₀, recs_sub₀, isz, rows, hg, hg2, hshape, hnil, hb, hrows,
    hlensub, hfwd, hbwd⟩ := make_batch_ok_rows hok
  rw [hg] at hrecs
  have e1 : recs₀ = recs := Option.some.inj hrecs
  subst e1
  rw [hg2] at hrecs2
  have e2 : recs_sub₀ = recs_sub := Option.some.inj hrecs2
  subst e2
  have hskip : d₂.num_skip = d.num_skip := by rw [hshape]
  subst hb
  refine ⟨hnil, ?_, ?_, ?_⟩
  · intro row hmem
    obtain ⟨i, hi⟩ := List.mem_iff_getElem?.mp hmem
    simp only [mkBatch, List.getElem?_map] at hi
    cases hr : rows[i]? with
    | none => rw [hr] at hi; exact absurd hi (by simp)
    | some r =>
      rw [hr] at hi
      simp only [Option.map_some', Option.some.injEq] at hi
      obtain ⟨rec, rec', hrec, hrec2, hproc⟩ := hbwd i r hr
      obtain ⟨hle, hlen⟩ := processExample_ok_input hproc
      rw [← hi, hlen]
      unfold tmaxOf
      rw [hskip]
  · intro row hmem
    obtain ⟨i, hi⟩ := List.mem_iff_getElem?.mp hmem
    simp only [mkBatch, List.getElem?_map] at hi
    cases hr : rows[i]? with
    | none => rw [hr] at hi; exact absurd hi (by simp)
    | some r =>
      rw [hr] at hi
      simp only [Option.map_some', Option.some.injEq] at hi
      obtain ⟨rec, rec', hrec, hrec2, hproc⟩ := hbwd i r hr
      obtain ⟨hlen, _, _⟩ := processExample_ok_labels hproc
        (tokenCount_le_lmaxOf hrec) (tokenCount_le_lmaxOf hrec2)
      rw [← hi, hlen]
      rfl
  · intro row hmem
    obtain ⟨i, hi⟩ := List.mem_iff_getElem?.mp hmem
    simp only [mkBatch, List.getElem?_map] at hi
    cases hr : rows[i]? with
    | none => rw [hr] at hi; exact absurd hi (by simp)
    | some r =>
      rw [hr] at hi
      simp only [Option.map_some', Option.some.injEq] at hi
      obtain ⟨rec, rec', hrec, hrec2, hproc⟩ := hbwd i r hr
      obtain ⟨_, hlen, _⟩ := processExample_ok_labels hproc
        (tokenCount_le_lmaxOf hrec) (tokenCount_le_lmaxOf hrec2)
      rw [← hi, hlen]
      rfl

theorem claim_c2_witness :
    (∃ b d₂, make_batch dsAttn [0] = (Except.ok b, d₂) ∧
      getAll dsAttn.df [0] = some [⟨1, "a/u1.npy", "5"⟩] ∧
      getAll dsAttn.df_sub [0] = some [⟨1, "a/u1.npy", "3 4"⟩]) ∧
    ([⟨1, "a/u1.npy", "5"⟩] : List Record) ≠ [] :=
  ⟨⟨bAttn, dsAttnCached, by decide, by decide, by decide⟩,
    (claim_c2_batch_maxima dsAttn [0] bAttn dsAttnCached
      [⟨1, "a/u1.npy", "5"⟩] [⟨1, "a/u1.npy", "3 4"⟩]
      (by decide) (by decide) (by decide)).1⟩

/-- C3 counterexample: on an evaluation split a successful `make_batch`
puts the raw transcript string at `labels[0][0]` while
`labels_seq_len[0] = 0`, so the cell at position `0 ≥ labels_seq_len[0]` is
not the pad index — the claim fails as stated for test-type splits. -/
theorem claim_c3_counterexample :
    dsTest.is_test = true ∧
    ((make_batch dsTest [0]).1.toOption.map
      (fun b => ((b.labels[0]?.getD [])[0]?, b.labels_seq_len[0]?))) =
      some (some (LabelCell.raw "hello there you"), some 0) ∧
    LabelCell.raw "hello there you" ≠ LabelCell.idx dsTest.pad_value := by
  decide

/-- C3 amended: for every batch `make_batch` returns,
`inputs_seq_len[i]` never exceeds the allocated time dimension, and — on
non-evaluation splits — every label cell at or beyond the recorded label
length is the task's pad index. -/
theorem claim_c3_amended (d : Dataset) (idxs : List Nat) (b : Batch)
    (d₂ : Dataset) (hok : make_batch d idxs = (Except.ok b, d₂)) :
    (∀ (i n : Nat) (row : List (List Int)),
      b.inputs_seq_len[i]? = some n → b.inputs[i]? = some row →
      n ≤ row.length) ∧
    (d.is_test = false →
      (∀ (i : Nat) (row : List LabelCell) (len j : Nat),
        b.labels[i]? = some row → b.labels_seq_len[i]? = some len →
        len ≤ j → j < row.length →
        row[j]? = some (LabelCell.idx d.pad_value)) ∧
      (∀ (i : Nat) (row : List LabelCell) (len j : Nat),
        b.labels_sub[i]? = some row → b.labels_seq_len_sub[i]? = some len →
        len ≤ j → j < row.length →
        row[j]? = some (LabelCell.idx d.pad_value_sub))) := by
  obtain ⟨recs, recs_sub, isz, rows, hg, hg2, hshape, hnil, hb, hrows,
    hlensub, hfwd, hbwd⟩ := make_batch_ok_rows hok
  have htest2 : d₂.is_test = d.is_test := by rw [hshape]
  have hpad : d₂.pad_value = d.pad_value := by rw [hshape]
  have hpad2 : d₂.pad_value_sub = d.pad_value_sub := by rw [hshape]
  subst hb
  constructor
  · intro i n row hn hrow
    simp only [mkBatch, List.getElem?_map] at hn hrow
    cases hr : rows[i]? with
    | none => rw [hr] at hn; exact absurd hn (by simp)
    | some r =>
      rw [hr] at hn hrow
      simp only [Option.map_some', Option.some.injEq] at hn hrow
      obtain ⟨rec, rec', hrec, hrec2, hproc⟩ := hbwd i r hr
      obtain ⟨hle, hlen⟩ := processExample_ok_input hproc
      rw [← hn, ← hrow, hlen]
      exact hle
  · intro htest
    constructor
    · intro i row len j hrow hlen hj hjr
      simp only [mkBatch, List.getElem?_map] at hrow hlen
      cases hr : rows[i]? with
      | none => rw [hr] at hrow; exact absurd hrow (by simp)
      | some r =>
        rw [hr] at hrow hlen
        simp only [Option.map_some', Option.some.injEq] at hrow hlen
        obtain ⟨rec, rec', hrec, hrec2, hproc⟩ := hbwd i r hr
        obtain ⟨hL, _, hpads⟩ := processExample_ok_labels hproc
          (tokenCount_le_lmaxOf hrec) (tokenCount_le_lmaxOf hrec2)
        obtain ⟨hp1, _⟩ := hpads (by rw [htest2, htest])
        rw [← hrow] at hjr ⊢
        rw [← hpad]
        exact hp1 j (by rw [hlen]; exact hj) (by rw [← hL]; exact hjr)
    · intro i row len j hrow hlen hj hjr
      simp only [mkBatch, List.getElem?_map] at hrow hlen
      cases hr : rows[i]? with
      | none => rw [hr] at hrow; exact absurd hrow (by simp)
      | some r =>
        rw [hr] at hrow hlen
        simp only [Option.map_some', Option.some.injEq] at hrow hlen
        obtain ⟨rec, rec', hrec, hrec2, hproc⟩ := hbwd i r hr
        obtain ⟨_, hL, hpads⟩ := processExample_ok_labels hproc
          (tokenCount_le_lmaxOf hrec) (tokenCount_le_lmaxOf hrec2)
        obtain ⟨_, hp2⟩ := hpads (by rw [htest2, htest])
        rw [← hrow] at hjr ⊢
        rw [← hpad2]
        exact hp2 j (by rw [hlen]; exact hj) (by rw [← hL]; exact hjr)

theorem claim_c3_witness :
    bAttn.inputs_seq_len[0]? = some 1 ∧
    bAttn.inputs[0]? = some [[7]] ∧
    (1 : Nat) ≤ ([[(7 : Int)]] : List (List Int)).length :=
  ⟨by decide, by decide,
    (claim_c3_amended dsAttn [0] bAttn dsAttnCached (by decide)).1 0 1 [[7]]
      (by decide) (by decide)⟩

/-- C7: on evaluation splits, every example of a returned batch carries its
raw untokenized transcript (main and sub) at position 0 of its label row,
and every later position keeps the pad value. -/
theorem claim_c7_eval_labels (d : Dataset) (idxs : List Nat) (b : Batch)
    (d₂ : Dataset) (recs recs_sub : List Record) (i : Nat)
    (rec rec_sub : Record)
    (hok : make_batch d idxs = (Except.ok b, d₂)) (htest : d.is_test = true)
    (hrecs : getAll d.df idxs = some recs)
    (hrecs2 : getAll d.df_sub idxs = some recs_sub)
    (hi : recs[i]? = some rec) (hi2 : recs_sub[i]? = some rec_sub) :
    ∃ row row_sub,
      b.labels[i]? = some row ∧ b.labels_sub[i]? = some row_sub ∧
      row[0]? = some (LabelCell.raw rec.transcript) ∧
      row_sub[0]? = some (LabelCell.raw rec_sub.transcript) ∧
      (∀ j, 1 ≤ j → j < row.length →
        row[j]? = some (LabelCell.idx d.pad_value)) ∧
      (∀ j, 1 ≤ j → j < row_sub.length →
        row_sub[j]? = some (LabelCell.idx d.pad_value_sub)) := by
  obtain ⟨recs₀, recs_sub₀, isz, rows, hg, hg2, hshape, hnil, hb, hrows,
    hlensub, hfwd, hbwd⟩ := make_batch_ok_rows hok
  rw [hg] at hrecs
  have e1 : recs₀ = recs := Option.some.inj hrecs
  subst e1
  rw [hg2] at hrecs2
  have e2 : recs_sub₀ = recs_sub := Option.some.inj hrecs2
  subst e2
  have htest2 : d₂.is_test = true := by rw [hshape]; exact htest
  have hpad : d₂.pad_value = d.pad_value := by rw [hshape]
  have hpad2 : d₂.pad_value_sub = d.pad_value_sub := by rw [hshape]
  subst hb
  obtain ⟨r, hr, hproc⟩ := hfwd i rec rec_sub hi hi2
  obtain ⟨a, _, _, _, _, _, hlab⟩ := processExample_ok_inv hproc
  cases hlab with
  | inr htrain => rw [htrain.1] at htest2; exact absurd htest2 (by simp)
  | inl hl =>
    obtain ⟨_, hrow, _, hrow2, _⟩ := hl
    have hL : 0 < lmaxOf recs₀ :=
      Nat.lt_of_lt_of_le (by omega) (tokenCount_le_lmaxOf hi)
    have hL2 : 0 < lmaxOf recs_sub₀ :=
      Nat.lt_of_lt_of_le (by omega) (tokenCount_le_lmaxOf hi2)
    refine ⟨r.label_row, r.label_row_sub, ?_, ?_, ?_, ?_, ?_, ?_⟩
    · simp only [mkBatch, List.getElem?_map, hr, Option.map_some']
    · simp only [mkBatch, List.getElem?_map, hr, Option.map_some']
    · rw [hrow]; exact testRow_getElem_zero hL
    · rw [hrow2]; exact testRow_getElem_zero hL2
    · intro j hj hjr
      rw [hrow] at hjr ⊢
      rw [testRow_length] at hjr
      rw [← hpad]
      exact testRow_getElem_pad hj hjr
    · intro j hj hjr
      rw [hrow2] at hjr ⊢
      rw [testRow_length] at hjr
      rw [← hpad2]
      exact testRow_getElem_pad hj hjr

theorem claim_c7_witness :
    ∃ row row_sub,
      ((make_batch dsTest [0]).1.toOption.getD bAttn).labels[0]? = some row ∧
      ((make_batch dsTest [0]).1.toOption.getD bAttn).labels_sub[0]? =
        some row_sub ∧
      row[0]? = some (LabelCell.raw "hello there you") ∧
      row_sub[0]? = some (LabelCell.raw "h i") ∧
      (∀ j, 1 ≤ j → j < row.length →
        row[j]? = some (LabelCell.idx dsTest.pad_value)) ∧
      (∀ j, 1 ≤ j → j < row_sub.length →
        row_sub[j]? = some (LabelCell.idx dsTest.pad_value_sub)) := by
  have h := claim_c7_eval_labels dsTest [0]
    ((make_batch dsTest [0]).1.toOption.getD bAttn) (make_batch dsTest [0]).2
    [⟨10, "a/u1.npy", "hello there you"⟩] [⟨10, "a/u1.npy", "h i"⟩] 0
    ⟨10, "a/u1.npy", "hello there you"⟩ ⟨10, "a/u1.npy", "h i"⟩
    (by decide) (by decide) (by decide) (by decide) (by decide) (by decide)
  exact h

/-- C1: on non-evaluation splits, each example of a returned batch encodes
its transcript as `SOS, tokens, EOS` with recorded length `n + 2` under the
sequence-generation family, and as the bare tokens with recorded length `n`
under the frame-synchronous family; the sub-task rows use the sub-task's
own SOS/EOS and token count. -/
theorem claim_c1_label_encoding (d : Dataset) (idxs : List Nat) (b : Batch)
    (d₂ : Dataset) (recs recs_sub : List Record) (i : Nat)
    (rec rec_sub : Record) (ind ind_sub : List Int)
    (hok : make_batch d idxs = (Except.ok b, d₂)) (htest : d.is_test = false)
    (hrecs : getAll d.df idxs = some recs)
    (hrecs2 : getAll d.df_sub idxs = some recs_sub)
    (hi : recs[i]? = some rec) (hi2 : recs_sub[i]? = some rec_sub)
    (hind : parseIndices rec.transcript = some ind)
    (hind2 : parseIndices rec_sub.transcript = some ind_sub) :
    ind.length = tokenCount rec.transcript ∧
    ind_sub.length = tokenCount rec_sub.transcript ∧
    ∃ row row_sub,
      b.labels[i]? = some row ∧ b.labels_sub[i]? = some row_sub ∧
      (d.model_type = "hierarchical_attention" →
        row[0]? = some (LabelCell.idx d.sos_index) ∧
        (∀ (k : Nat), k < ind.length →
          row[k + 1]? = (ind[k]?).map LabelCell.idx) ∧
        row[ind.length + 1]? = some (LabelCell.idx d.eos_index) ∧
        b.labels_seq_len[i]? = some (ind.length + 2) ∧
        row_sub[0]? = some (LabelCell.idx d.sos_index_sub) ∧
        (∀ (k : Nat), k < ind_sub.length →
          row_sub[k + 1]? = (ind_sub[k]?).map LabelCell.idx) ∧
        row_sub[ind_sub.length + 1]? = some (LabelCell.idx d.eos_index_sub) ∧
        b.labels_seq_len_sub[i]? = some (ind_sub.length + 2)) ∧
      (d.model_type = "hierarchical_ctc" →
        (∀ (k : Nat), k < ind.length →
          row[k]? = (ind[k]?).map LabelCell.idx) ∧
        b.labels_seq_len[i]? = some ind.length ∧
        (∀ (k : Nat), k < ind_sub.length →
          row_sub[k]? = (ind_sub[k]?).map LabelCell.idx) ∧
        b.labels_seq_len_sub[i]? = some ind_sub.length) := by
  obtain ⟨recs₀, recs_sub₀, isz, rows, hg, hg2, hshape, hnil, hb, hrows,
    hlensub, hfwd, hbwd⟩ := make_batch_ok_rows hok
  rw [hg] at hrecs
  have e1 : recs₀ = recs := Option.some.inj hrecs
  subst e1
  rw [hg2] at hrecs2
  have e2 : recs_sub₀ = recs_sub := Option.some.inj hrecs2
  subst e2
  have htest2 : d₂.is_test = false := by rw [hshape]; exact htest
  have hmt : d₂.model_type = d.model_type := by rw [hshape]
  have hsos : d₂.sos_index = d.sos_index := by rw [hshape]
  have heos : d₂.eos_index = d.eos_index := by rw [hshape]
  have hsos2 : d₂.sos_index_sub = d.sos_index_sub := by rw [hshape]
  have heos2 : d₂.eos_index_sub = d.eos_index_sub := by rw [hshape]
  have hlen1 : ind.length = tokenCount rec.transcript :=
    parseIndices_length hind
  have hlen2 : ind_sub.length = tokenCount rec_sub.transcript :=
    parseIndices_length hind2
  have hbound1 : ind.length + 2 ≤ lmaxOf recs₀ := by
    rw [hlen1]; exact tokenCount_le_lmaxOf hi
  have hbound2 : ind_sub.length + 2 ≤ lmaxOf recs_sub₀ := by
    rw [hlen2]; exact tokenCount_le_lmaxOf hi2
  subst hb
  obtain ⟨r, hr, hproc⟩ := hfwd i rec rec_sub hi hi2
  obtain ⟨a, _, _, _, _, _, hlab⟩ := processExample_ok_inv hproc
  cases hlab with
  | inl hl => rw [hl.1] at htest2; exact absurd htest2 (by simp)
  | inr htrain =>
    obtain ⟨_, ind₀, indSub₀, hp1, hp2, hcase⟩ := htrain
    rw [hind] at hp1
    have e3 : ind₀ = ind := (Option.some.inj hp1).symm
    subst e3
    rw [hind2] at hp2
    have e4 : indSub₀ = ind_sub := (Option.some.inj hp2).symm
    subst e4
    refine ⟨hlen1, hlen2, r.label_row, r.label_row_sub, ?_, ?_, ?_, ?_⟩
    · simp only [mkBatch, List.getElem?_map, hr, Option.map_some']
    · simp only [mkBatch, List.getElem?_map, hr, Option.map_some']
    · intro hm
      cases hcase with
      | inr hctc =>
        rw [hmt, hm] at hctc
        exact absurd hctc.1 (by decide)
      | inl hatt =>
        obtain ⟨_, hrow, hn, hrow2, hn2⟩ := hatt
        have hLa : (ind₀.map LabelCell.idx).length + 2 ≤ lmaxOf recs₀ := by
          rw [List.length_map]; exact hbound1
        have hLa2 : (indSub₀.map LabelCell.idx).length + 2 ≤ lmaxOf recs_sub₀ := by
          rw [List.length_map]; exact hbound2
        refine ⟨?_, ?_, ?_, ?_, ?_, ?_, ?_, ?_⟩
        · rw [hrow, ← hsos]; exact attRow_getElem_zero hLa
        · intro k hk
          rw [hrow]
          rw [attRow_getElem_tok hLa (by rw [List.length_map]; exact hk)]
          rw [List.getElem?_map]
        · rw [hrow, ← heos]
          have hlm : (ind₀.map LabelCell.idx).length = ind₀.length :=
            List.length_map _ _
          rw [← hlm]
          exact attRow_getElem_eos hLa
        · simp only [mkBatch, List.getElem?_map, hr, Option.map_some', hn]
        · rw [hrow2, ← hsos2]; exact attRow_getElem_zero hLa2
        · intro k hk
          rw [hrow2]
          rw [attRow_getElem_tok hLa2 (by rw [List.length_map]; exact hk)]
          rw [List.getElem?_map]
        · rw [hrow2, ← heos2]
          have hlm2 : (indSub₀.map LabelCell.idx).length = indSub₀.length :=
            List.length_map _ _
          rw [← hlm2]
          exact attRow_getElem_eos hLa2
        · simp only [mkBatch, List.getElem?_map, hr, Option.map_some', hn2]
    · intro hm
      cases hcase with
      | inl hatt =>
        rw [hmt, hm] at hatt
        exact absurd hatt.1 (by decide)
      | inr hctc =>
        obtain ⟨_, hrow, hn, hrow2, hn2⟩ := hctc
        have hLa : (ind₀.map LabelCell.idx).length ≤ lmaxOf recs₀ := by
          rw [List.length_map]; omega
        have hLa2 : (indSub₀.map LabelCell.idx).length ≤ lmaxOf recs_sub₀ := by
          rw [List.length_map]; omega
        refine ⟨?_, ?_, ?_, ?_⟩
        · intro k hk
          rw [hrow]
          rw [ctcRow_getElem_tok hLa (by rw [List.length_map]; exact hk)]
          rw [List.getElem?_map]
        · simp only [mkBatch, List.getElem?_map, hr, Option.map_some', hn]
        · intro k hk
          rw [hrow2]
          rw [ctcRow_getElem_tok hLa2 (by rw [List.length_map]; exact hk)]
          rw [List.getElem?_map]
        · simp only [mkBatch, List.getElem?_map, hr, Option.map_some', hn2]

theorem claim_c1_witness :
    ([(5 : Int)] : List Int).length = tokenCount "5" ∧
    ([(3 : Int), 4] : List Int).length = tokenCount "3 4" ∧
    ∃ row row_sub,
      bAttn.labels[0]? = some row ∧ bAttn.labels_sub[0]? = some row_sub ∧
      (dsAttn.model_type = "hierarchical_attention" →
        row[0]? = some (LabelCell.idx dsAttn.sos_index) ∧
        (∀ (k : Nat), k < ([(5 : Int)] : List Int).length →
          row[k + 1]? = (([(5 : Int)] : List Int)[k]?).map LabelCell.idx) ∧
        row[([(5 : Int)] : List Int).length + 1]? =
          some (LabelCell.idx dsAttn.eos_index) ∧
        bAttn.labels_seq_len[0]? = some (([(5 : Int)] : List Int).length + 2) ∧
        row_sub[0]? = some (LabelCell.idx dsAttn.sos_index_sub) ∧
        (∀ (k : Nat), k < ([(3 : Int), 4] : List Int).length →
          row_sub[k + 1]? =
            (([(3 : Int), 4] : List Int)[k]?).map LabelCell.idx) ∧
        row_sub[([(3 : Int), 4] : List Int).length + 1]? =
          some (LabelCell.idx dsAttn.eos_index_sub) ∧
        bAttn.labels_seq_len_sub[0]? =
          some (([(3 : Int), 4] : List Int).length + 2)) ∧
      (dsAttn.model_type = "hierarchical_ctc" →
        (∀ (k : Nat), k < ([(5 : Int)] : List Int).length →
          row[k]? = (([(5 : Int)] : List Int)[k]?).map LabelCell.idx) ∧
        bAttn.labels_seq_len[0]? = some ([(5 : Int)] : List Int).length ∧
        (∀ (k : Nat), k < ([(3 : Int), 4] : List Int).length →
          row_sub[k]? =
            (([(3 : Int), 4] : List Int)[k]?).map LabelCell.idx) ∧
        bAttn.labels_seq_len_sub[0]? =
          some ([(3 : Int), 4] : List Int).length) :=
  claim_c1_label_encoding dsAttn [0] bAttn dsAttnCached
    [⟨1, "a/u1.npy", "5"⟩] [⟨1, "a/u1.npy", "3 4"⟩] 0
    ⟨1, "a/u1.npy", "5"⟩ ⟨1, "a/u1.npy", "3 4"⟩ [5] [3, 4]
    (by decide) rfl (by decide) (by decide) (by decide) (by decide)
    (by decide) (by decide)

end NeuralSP
